import Mathlib

/-!
Shallow embedding of src/download-hexpm.py (a mirror script for repo.hex.pm)
and proofs about its sync-engine functions.

Modelling conventions:
- The local filesystem is a partial map from path strings to file contents
  (lists of byte values); a path maps to none when no file exists there.
- Network responses are passed in explicitly: a page fetch takes the
  sequence of HTTP responses it will observe, and the CSV processor takes
  the already parsed rows of the remote CSV file.
- The sha512 hexdigest computation of the hashlib library is passed in as
  an explicit function argument, since the claims concern how its result
  string is compared, not the compression function itself.
- Python dicts preserve insertion order, so the dict of unique filepaths is
  modelled as a list in first-insertion order.
-/

namespace DownloadHexpm

/-- A release of a package, as parsed from the catalog JSON. -/
structure Release where
  version : String
deriving DecidableEq

/-- A package entry of the catalog JSON: a name and its releases in order. -/
structure Package where
  name : String
  releases : List Release
deriving DecidableEq

/-- The local filesystem: maps a path to the file content stored there,
or none when the path has no file. -/
def FS : Type := String → Option (List Nat)

/-- Model of os.path.isfile. -/
def isfile (fs : FS) (path : String) : Bool :=
  (fs path).isSome

/-- Constant API_PULL_JOBS of the script: pages per concurrent batch. -/
def API_PULL_JOBS : Nat := 25

/-- Model of file_with_hash_exists: the file at filepath exists and the
hexdigest of its whole content equals the supplied hash string, compared
by plain string equality. The hexdigest function stands for
hashlib.sha512 followed by hexdigest. -/
def file_with_hash_exists (hexdigest : List Nat → String) (fs : FS)
    (filepath : String) (hash : String) : Bool :=
  match fs filepath with
  | some content => hexdigest content == hash
  | none => false

/-- Outcome of the write step inside download_file: either the whole body
is written, or the write raises partway through with only a fragment of
the content on disk. -/
inductive WriteResult where
  | ok
  | failed (fragment : List Nat)
deriving DecidableEq

/-- Model of download_file, as the transformation it applies to the local
filesystem. The request returned the given status and body content. On
status 200 the body is written to filepath, replacing any existing file;
if that write raises partway (WriteResult.failed), the fragment written so
far is on disk when the handler runs os.remove, which deletes it. On any
other status nothing on disk is touched. -/
def download_file (fs : FS) (filepath : String) (status : Nat)
    (content : List Nat) (w : WriteResult) : FS :=
  if status = 200 then
    match w with
    | .ok => fun p => if p = filepath then some content else fs p
    | .failed fragment =>
        let written : FS := fun p => if p = filepath then some fragment else fs p
        fun p => if p = filepath then none else written p
  else fs

/-- Result of download_package_page: the parsed page data on a 200, or a
fatal abort of the whole run (the error function) on any other non-429
status. -/
inductive FetchResult where
  | ok (data : List Package)
  | fatal (code : Nat)
deriving DecidableEq

/-- Model of download_package_page. The argument lists the successive HTTP
responses the page request will observe, each a status code and the parsed
JSON body. The loop re-requests while the status is 429, sleeping one
second each time; the returned number counts those sleeps. The result is
none when the response list runs out while still rate limited (the real
loop would still be retrying). -/
def download_package_page : List (Nat × List Package) → Option (FetchResult × Nat)
  | [] => none
  | (code, data) :: rest =>
    if code = 429 then
      (download_package_page rest).map (fun r => (r.1, r.2 + 1))
    else if code = 200 then some (.ok data, 0)
    else some (.fatal code, 0)

/-- The inner loop body of get_full_repo_data over one batch of page
results: a page with data extends the accumulated list, a page that parsed
to an empty collection sets the last page flag. The loop has no break, so
later pages of the batch are still processed after the flag is set. -/
def process_batch : List (List Package) → List Package × Bool → List Package × Bool
  | [], st => st
  | d :: rest, (acc, last) =>
    if d.isEmpty then process_batch rest (acc, true)
    else process_batch rest (acc ++ d, last)

/-- The while loop of get_full_repo_data. Pages is the parsed data of each
catalog page by page number; fuel bounds the number of batch iterations,
with none returned when it runs out before a batch contains an empty
page. Each iteration maps download_package_page over one batch of
API_PULL_JOBS consecutive page numbers, in order. -/
def repo_loop (pages : Nat → List Package) : Nat → Nat → List Package → Option (List Package)
  | 0, _, _ => none
  | fuel + 1, page_block_index, full_list =>
    let batch := (List.range API_PULL_JOBS).map (fun i => pages (page_block_index + i))
    let st := process_batch batch (full_list, false)
    if st.2 then some st.1
    else repo_loop pages fuel (page_block_index + API_PULL_JOBS) st.1

/-- Model of get_full_repo_data: batches start at page 1. -/
def get_full_repo_data (pages : Nat → List Package) (fuel : Nat) : Option (List Package) :=
  repo_loop pages fuel 1 []

/-- Remote URL of a release tarball. -/
def tarball_url (name version : String) : String :=
  "https://repo.hex.pm/tarballs/" ++ name ++ "-" ++ version ++ ".tar"

/-- Local path of a release tarball under the download directory. -/
def local_tarball_file (dir name version : String) : String :=
  dir ++ "/tarballs/" ++ name ++ "-" ++ version ++ ".tar"

/-- Remote URL of a package metadata file. -/
def package_url (name : String) : String :=
  "https://repo.hex.pm/packages/" ++ name

/-- Local path of a package metadata file under the download directory. -/
def local_package_file (dir name : String) : String :=
  dir ++ "/packages/" ++ name

/-- The body of the release loop of determine_files_to_download: a missing
tarball appends its download task and marks the package for inclusion. -/
def release_step (fs : FS) (dir name : String)
    (st : List (String × String) × Bool) (r : Release) :
    List (String × String) × Bool :=
  if isfile fs (local_tarball_file dir name r.version) then st
  else (st.1 ++ [(tarball_url name r.version, local_tarball_file dir name r.version)], true)

/-- The body of the package loop of determine_files_to_download: process
all releases of the package, then append the package metadata task when
any tarball task was appended or the metadata file is absent locally. -/
def determine_package (fs : FS) (dir : String)
    (files_to_download : List (String × String)) (p : Package) :
    List (String × String) :=
  let st := p.releases.foldl (release_step fs dir p.name) (files_to_download, false)
  if st.2 || !(isfile fs (local_package_file dir p.name)) then
    st.1 ++ [(package_url p.name, local_package_file dir p.name)]
  else st.1

/-- Model of determine_files_to_download: folds over all catalog packages,
producing the list of (URL, FILEPATH) pairs to download. -/
def determine_files_to_download (full_list : List Package) (dir : String) (fs : FS) :
    List (String × String) :=
  full_list.foldl (determine_package fs dir) []

/-- One parsed row of an installs CSV file: hex version, hash, elixir
version, in the field order the script assigns. -/
structure CsvRow where
  hex_ver : String
  hash : String
  elixir_ver : String
deriving DecidableEq

/-- One entry of the unique_filepaths dict of download_and_process_hex_csv:
a destination path, its URL, and every hash recorded for that path. -/
structure UniqueFile where
  filepath : String
  url : String
  hashes : List String
deriving DecidableEq

/-- Remote URL of an installs file for a tool version pair. -/
def install_url (elixir_ver pre hex_ver suf : String) : String :=
  "https://repo.hex.pm/installs/" ++ elixir_ver ++ "/" ++ pre ++ "-" ++ hex_ver ++ suf

/-- Local path of an installs file under the download directory. -/
def local_install_file (dir elixir_ver pre hex_ver suf : String) : String :=
  dir ++ "/installs/" ++ elixir_ver ++ "/" ++ pre ++ "-" ++ hex_ver ++ suf

/-- Inserting one row into the dict of unique filepaths: a known path gets
the hash appended to its list, a new path is added at the end with the URL
of this row. Insertion order of the Python dict is kept as list order. -/
def add_row (acc : List UniqueFile) (file url hash : String) : List UniqueFile :=
  if acc.any (fun e => e.filepath == file) then
    acc.map (fun e =>
      if e.filepath == file then ⟨e.filepath, e.url, e.hashes ++ [hash]⟩ else e)
  else acc ++ [⟨file, url, [hash]⟩]

/-- The first loop of download_and_process_hex_csv: fold the CSV rows into
the dict of unique filepaths with their accumulated hash lists. -/
def unique_filepaths (dir pre suf : String) (rows : List CsvRow) : List UniqueFile :=
  rows.foldl
    (fun acc row =>
      add_row acc (local_install_file dir row.elixir_ver pre row.hex_ver suf)
        (install_url row.elixir_ver pre row.hex_ver suf) row.hash) []

/-- Model of download_and_process_hex_csv given the parsed rows of the
remote CSV: group rows into unique filepaths, then emit a task for every
grouped file whose local copy matches none of its accumulated hashes. -/
def download_and_process_hex_csv (hexdigest : List Nat → String) (fs : FS)
    (dir : String) (rows : List CsvRow) (pre suf : String) :
    List (String × String) :=
  (unique_filepaths dir pre suf rows).foldl
    (fun files_to_download e =>
      if e.hashes.any (fun h => file_with_hash_exists hexdigest fs e.filepath h) then
        files_to_download
      else files_to_download ++ [(e.url, e.filepath)]) []

/-- The fixed list of extra files that get_extra_files_list always adds. -/
def extra_files : List String :=
  ["names", "versions", "installs/hex-1.x.csv", "installs/hex-1.x.csv.signed",
   "installs/rebar-1.x.csv", "installs/rebar-1.x.csv.signed",
   "installs/rebar3-1.x.csv", "installs/rebar3-1.x.csv.signed",
   "installs/public_keys.html"]

/-- Model of get_extra_files_list given the parsed rows of the three
remote CSV files: the three CSV derived task lists followed by the always
added extra files. -/
def get_extra_files_list (hexdigest : List Nat → String) (fs : FS) (dir : String)
    (hexRows rebarRows rebar3Rows : List CsvRow) : List (String × String) :=
  download_and_process_hex_csv hexdigest fs dir hexRows "hex" ".ez"
    ++ download_and_process_hex_csv hexdigest fs dir rebarRows "rebar" ""
    ++ download_and_process_hex_csv hexdigest fs dir rebar3Rows "rebar3" ""
    ++ extra_files.map (fun extra => ("https://repo.hex.pm/" ++ extra, dir ++ "/" ++ extra))

/-- The combined download list built by main for the download command: the
catalog derived tasks extended with the extra files list. -/
def main_download_list (hexdigest : List Nat → String) (fs : FS) (dir : String)
    (full_list : List Package) (hexRows rebarRows rebar3Rows : List CsvRow) :
    List (String × String) :=
  determine_files_to_download full_list dir fs
    ++ get_extra_files_list hexdigest fs dir hexRows rebarRows rebar3Rows

/-! Theorems about the hash verifier (file_with_hash_exists). -/

/-- C9: for every path with no file on disk and every digest string, the
hash verifier returns false; it is a total Bool valued function, so
absence is a normal not-verified outcome, not an error (the isfile guard
in the source prevents any exception). -/
theorem c9_missing_file_not_verified (hexdigest : List Nat → String) (fs : FS)
    (filepath hash : String) (h : fs filepath = none) :
    file_with_hash_exists hexdigest fs filepath hash = false := by
  simp [file_with_hash_exists, h]

/-- Filesystem with no files at all, for the C9 witness. -/
def c9fs : FS := fun _ => none

/-- C9 witness: the verifier at a concrete absent path returns false. -/
theorem c9_witness :
    file_with_hash_exists (fun _ => "00ff") c9fs "./repo.hex.pm/packages/alpha" "00ff" = false :=
  c9_missing_file_not_verified (fun _ => "00ff") c9fs
    "./repo.hex.pm/packages/alpha" "00ff" rfl

/-- Hexdigest model for the C6 counterexample: every content hashes to one
fixed lowercase hex string, matching the fact that the hexdigest method of
hashlib outputs lowercase hex. -/
def c6digest : List Nat → String := fun _ => "3a9f0be24c1ad77082b2e1c9db7ca2b1"

/-- Filesystem for the C6 counterexample: a file exists at every path. -/
def c6fs : FS := fun _ => some [1]

/-- ASCII lowercasing of one character, used to state the case
insensitivity claim. -/
def lowerChar (c : Char) : Char :=
  if 65 ≤ c.toNat ∧ c.toNat ≤ 90 then Char.ofNat (c.toNat + 32) else c

/-- ASCII lowercasing of a string, used to state the case insensitivity
claim. -/
def lowercase (s : String) : String :=
  String.mk (s.data.map lowerChar)

/-- C6 counterexample: the digest comparison is not case insensitive. At a
path whose file content hashes to a lowercase hex string, supplying the
digest in uppercase yields false while supplying its lowercase form yields
true, so verify(path, d) and verify(path, lowercase(d)) differ. -/
theorem c6_counterexample :
    file_with_hash_exists c6digest c6fs "./repo.hex.pm/installs/1.13.0/hex-1.0.ez"
        "3A9F0BE24C1AD77082B2E1C9DB7CA2B1" = false
    ∧ file_with_hash_exists c6digest c6fs "./repo.hex.pm/installs/1.13.0/hex-1.0.ez"
        (lowercase "3A9F0BE24C1AD77082B2E1C9DB7CA2B1") = true := by
  constructor <;> decide

/-- C6 amended: the digest comparison of the hash verifier is exact, case
sensitive string equality: it returns true precisely when the file exists
and the hexdigest of its content equals the supplied digest string
exactly, so a digest differing only in letter case is not accepted. -/
theorem c6_exact_digest_comparison (hexdigest : List Nat → String) (fs : FS)
    (filepath hash : String) :
    file_with_hash_exists hexdigest fs filepath hash = true
      ↔ ∃ content, fs filepath = some content ∧ hexdigest content = hash := by
  cases hfs : fs filepath with
  | none => simp [file_with_hash_exists, hfs]
  | some c => simp [file_with_hash_exists, hfs]

/-! Theorems about the download executor (download_file). -/

/-- C8: for every task run by a worker, a write that raises after a
partial write leaves no file at the destination path (the fragment is
removed), and a non-success HTTP status leaves the whole filesystem
untouched: nothing is written, modified, or removed. -/
theorem c8_partial_write_cleanup (fs : FS) (filepath : String) (status : Nat)
    (content fragment : List Nat) (w : WriteResult) :
    (download_file fs filepath 200 content (.failed fragment)) filepath = none
    ∧ (status ≠ 200 → download_file fs filepath status content w = fs) := by
  constructor
  · simp [download_file]
  · intro h
    simp [download_file, h]

/-- Filesystem for the C8 witness: a file exists at every path. -/
def c8fs : FS := fun _ => some [0]

/-- C8 witness: at a concrete task, a partial write of a fragment leaves
no file at the destination, and a 404 status leaves the filesystem as it
was. -/
theorem c8_witness :
    (download_file c8fs "./repo.hex.pm/tarballs/alpha-1.0.tar" 200 [7, 7]
        (.failed [7])) "./repo.hex.pm/tarballs/alpha-1.0.tar" = none
    ∧ download_file c8fs "./repo.hex.pm/tarballs/alpha-1.0.tar" 404 [7, 7] .ok = c8fs :=
  ⟨(c8_partial_write_cleanup c8fs "./repo.hex.pm/tarballs/alpha-1.0.tar" 404
      [7, 7] [7] .ok).1,
   (c8_partial_write_cleanup c8fs "./repo.hex.pm/tarballs/alpha-1.0.tar" 404
      [7, 7] [7] .ok).2 (by decide)⟩

/-! Theorems about the catalog page fetcher (download_package_page). -/

/-- C7: for every catalog page request, each 429 response is followed by
one pause and a retry of the same page, for any number of retries; the
first non-429 response decides the outcome: a 200 returns its page data
after as many pauses as there were 429 responses, and any other status
makes the run abort with the error function (FetchResult.fatal). -/
theorem c7_rate_limit_retry (n : Nat) (d junk : List Package)
    (rest : List (Nat × List Package)) (c : Nat) :
    download_package_page (List.replicate n (429, junk) ++ ((200, d) :: rest))
      = some (.ok d, n)
    ∧ (c ≠ 200 → c ≠ 429 →
        download_package_page (List.replicate n (429, junk) ++ ((c, d) :: rest))
          = some (.fatal c, n)) := by
  constructor
  · induction n with
    | zero => simp [download_package_page]
    | succ n ih => simp [List.replicate_succ, download_package_page, ih]
  · intro h200 h429
    induction n with
    | zero => simp [download_package_page, h200, h429]
    | succ n ih => simp [List.replicate_succ, download_package_page, ih]

/-- C7 witness: the concrete response sequence 429, 429, 200 yields the
200 page data after two pauses, and 429, 429, 404 aborts after two
pauses. -/
theorem c7_witness :
    download_package_page [(429, []), (429, []),
        (200, [⟨"alpha", [⟨"1.0"⟩]⟩])]
      = some (.ok [⟨"alpha", [⟨"1.0"⟩]⟩], 2)
    ∧ download_package_page [(429, []), (429, []), (404, [⟨"alpha", [⟨"1.0"⟩]⟩])]
      = some (.fatal 404, 2) :=
  ⟨(c7_rate_limit_retry 2 [⟨"alpha", [⟨"1.0"⟩]⟩] [] [] 404).1,
   (c7_rate_limit_retry 2 [⟨"alpha", [⟨"1.0"⟩]⟩] [] [] 404).2
     (by decide) (by decide)⟩

/-! Structure of the diff planner (determine_files_to_download). -/

/-- The tarball tasks of one package: one task per release whose tarball
file is absent locally, kept in release order. -/
def package_tarball_tasks (fs : FS) (dir : String) (p : Package) :
    List (String × String) :=
  (p.releases.filter
      (fun r => !(isfile fs (local_tarball_file dir p.name r.version)))).map
    (fun r => (tarball_url p.name r.version, local_tarball_file dir p.name r.version))

/-- A package is dirty when at least one of its release tarball files is
absent locally (the include_package flag of the source). -/
def package_dirty (fs : FS) (dir : String) (p : Package) : Bool :=
  p.releases.any (fun r => !(isfile fs (local_tarball_file dir p.name r.version)))

/-- The tasks the planner emits for one package: its missing tarball tasks
in release order, then the package metadata task when the package is dirty
or its metadata file is absent locally. -/
def package_tasks (fs : FS) (dir : String) (p : Package) :
    List (String × String) :=
  package_tarball_tasks fs dir p ++
    (if package_dirty fs dir p || !(isfile fs (local_package_file dir p.name)) then
      [(package_url p.name, local_package_file dir p.name)]
    else [])

/-- The release loop of the planner appends exactly the missing tarball
tasks in release order and reports whether any release was missing. -/
theorem release_fold_eq (fs : FS) (dir name : String) :
    ∀ (rels : List Release) (acc : List (String × String)) (inc : Bool),
    rels.foldl (release_step fs dir name) (acc, inc)
      = (acc ++ (rels.filter
            (fun r => !(isfile fs (local_tarball_file dir name r.version)))).map
            (fun r => (tarball_url name r.version, local_tarball_file dir name r.version)),
         inc || rels.any (fun r => !(isfile fs (local_tarball_file dir name r.version)))) := by
  intro rels
  induction rels with
  | nil => intro acc inc; simp
  | cons r rels ih =>
    intro acc inc
    by_cases h : isfile fs (local_tarball_file dir name r.version)
    · simp [release_step, h, ih]
    · simp [release_step, h, ih, List.append_assoc]

/-- One step of the package loop appends exactly the tasks of that
package. -/
theorem determine_package_eq (fs : FS) (dir : String)
    (acc : List (String × String)) (p : Package) :
    determine_package fs dir acc p = acc ++ package_tasks fs dir p := by
  unfold determine_package package_tasks package_tarball_tasks package_dirty
  rw [release_fold_eq]
  simp only [Bool.false_or]
  split
  · simp [List.append_assoc]
  · simp

/-- The package loop of the planner produces the concatenation of the per
package task blocks, in catalog order. -/
theorem determine_foldl_eq (fs : FS) (dir : String) :
    ∀ (ps : List Package) (acc : List (String × String)),
    ps.foldl (determine_package fs dir) acc
      = acc ++ (ps.map (package_tasks fs dir)).flatten := by
  intro ps
  induction ps with
  | nil => intro acc; simp
  | cons p ps ih => intro acc; simp [List.foldl_cons, determine_package_eq, ih]

/-- C10: the task list of the diff planner is the concatenation, in
catalog order, of one block per package; within a block the missing
tarball tasks come in release order and the package metadata task, when
emitted, comes after all of them. So tasks are grouped by package without
interleaving. -/
theorem c10_planner_grouped_order (full_list : List Package) (dir : String) (fs : FS) :
    determine_files_to_download full_list dir fs
      = (full_list.map (package_tasks fs dir)).flatten := by
  unfold determine_files_to_download
  rw [determine_foldl_eq]
  simp

/-- C2: whenever some release tarball of a package is absent locally (so a
tarball task is emitted for it), the planner also emits the package
metadata task for that package, with no assumption on whether the
metadata file exists locally. -/
theorem c2_dirty_propagation (full_list : List Package) (dir : String) (fs : FS)
    (p : Package) (r : Release) (hp : p ∈ full_list) (hr : r ∈ p.releases)
    (hmiss : isfile fs (local_tarball_file dir p.name r.version) = false) :
    (package_url p.name, local_package_file dir p.name)
      ∈ determine_files_to_download full_list dir fs := by
  unfold determine_files_to_download
  rw [determine_foldl_eq]
  simp only [List.nil_append]
  rw [List.mem_flatten]
  refine ⟨package_tasks fs dir p, List.mem_map_of_mem _ hp, ?_⟩
  have hd : package_dirty fs dir p = true := by
    unfold package_dirty
    rw [List.any_eq_true]
    exact ⟨r, hr, by simp [hmiss]⟩
  unfold package_tasks
  simp [hd]

/-- Filesystem for the C2 witness: the 1.0 tarball and the metadata file
of package alpha exist, the 2.0 tarball does not. -/
def c2fs : FS := fun p =>
  if p = "./repo.hex.pm/tarballs/alpha-1.0.tar" then some [0]
  else if p = "./repo.hex.pm/packages/alpha" then some [1]
  else none

/-- C2 witness: with releases 1.0 and 2.0 and only the 2.0 tarball
missing, the planner emits the metadata task of package alpha even though
the metadata file is on disk. -/
theorem c2_witness :
    (package_url "alpha", local_package_file "./repo.hex.pm" "alpha")
      ∈ determine_files_to_download [⟨"alpha", [⟨"1.0"⟩, ⟨"2.0"⟩]⟩]
          "./repo.hex.pm" c2fs :=
  c2_dirty_propagation [⟨"alpha", [⟨"1.0"⟩, ⟨"2.0"⟩]⟩] "./repo.hex.pm" c2fs
    ⟨"alpha", [⟨"1.0"⟩, ⟨"2.0"⟩]⟩ ⟨"2.0"⟩ (by decide) (by decide) (by decide)

/-- Helper: the planner returns no tasks when every release tarball and
every package metadata file of the catalog is present locally. -/
theorem determine_eq_nil_of_all_present (full_list : List Package) (dir : String) (fs : FS)
    (h : ∀ p ∈ full_list,
      (∀ r ∈ p.releases, isfile fs (local_tarball_file dir p.name r.version) = true)
      ∧ isfile fs (local_package_file dir p.name) = true) :
    determine_files_to_download full_list dir fs = [] := by
  unfold determine_files_to_download
  rw [determine_foldl_eq]
  simp only [List.nil_append]
  rw [List.flatten_eq_nil_iff]
  intro l hl
  rw [List.mem_map] at hl
  obtain ⟨p, hp, rfl⟩ := hl
  obtain ⟨htar, hpkg⟩ := h p hp
  have h1 : p.releases.filter
      (fun r => !(isfile fs (local_tarball_file dir p.name r.version))) = [] := by
    rw [List.filter_eq_nil_iff]
    intro r hr
    simp [htar r hr]
  have h2 : p.releases.any
      (fun r => !(isfile fs (local_tarball_file dir p.name r.version))) = false := by
    rw [Bool.eq_false_iff]
    intro hany
    rw [List.any_eq_true] at hany
    obtain ⟨r, hr, hb⟩ := hany
    simp [htar r hr] at hb
  unfold package_tasks package_tarball_tasks package_dirty
  simp [h1, h2, hpkg]

/-- C5: when every release tarball and every package metadata file of the
catalog is already present locally, the planner returns the empty task
list. -/
theorem c5_planner_idempotence (full_list : List Package) (dir : String) (fs : FS)
    (h : ∀ p ∈ full_list,
      (∀ r ∈ p.releases, isfile fs (local_tarball_file dir p.name r.version) = true)
      ∧ isfile fs (local_package_file dir p.name) = true) :
    determine_files_to_download full_list dir fs = [] :=
  determine_eq_nil_of_all_present full_list dir fs h

/-- Filesystem for the C5 witness: the tarball and the metadata file of
the one catalog package exist. -/
def c5fs : FS := fun p =>
  if p = "./repo.hex.pm/tarballs/alpha-1.0.tar" then some [0]
  else if p = "./repo.hex.pm/packages/alpha" then some [1]
  else none

/-- C5 witness: on a concrete fully populated mirror the planner returns
the empty task list. -/
theorem c5_witness :
    determine_files_to_download [⟨"alpha", [⟨"1.0"⟩]⟩] "./repo.hex.pm" c5fs = [] :=
  c5_planner_idempotence [⟨"alpha", [⟨"1.0"⟩]⟩] "./repo.hex.pm" c5fs (by decide)

/-! Theorems about the catalog fetcher (get_full_repo_data). -/

/-- One batch pass accumulates every non-empty page of the batch, in page
order, and sets the last page flag exactly when some page of the batch is
empty. -/
theorem process_batch_eq :
    ∀ (ds : List (List Package)) (acc : List Package) (last : Bool),
    process_batch ds (acc, last)
      = (acc ++ (ds.filter (fun d => !d.isEmpty)).flatten,
         last || ds.any (fun d => d.isEmpty)) := by
  intro ds
  induction ds with
  | nil => intro acc last; simp [process_batch]
  | cons d rest ih =>
    intro acc last
    by_cases h : d.isEmpty
    · simp [process_batch, h, ih]
    · simp [process_batch, h, ih, List.append_assoc]

/-- Reference form of the catalog scan, written from the amended claim:
batches of API_PULL_JOBS consecutive pages are taken in order; the scan
stops at the first batch containing an empty page, and the result keeps
every non-empty page of every processed batch, including the non-empty
pages that come after the first empty page of the final batch. -/
def catalogSpec (pages : Nat → List Package) : Nat → Nat → Option (List Package)
  | 0, _ => none
  | fuel + 1, idx =>
    let batch := (List.range API_PULL_JOBS).map (fun i => pages (idx + i))
    if batch.any (fun d => d.isEmpty) then
      some ((batch.filter (fun d => !d.isEmpty)).flatten)
    else
      (catalogSpec pages fuel (idx + API_PULL_JOBS)).map
        (fun rest => batch.flatten ++ rest)

/-- The loop of get_full_repo_data computes catalogSpec, prefixed by its
accumulator. -/
theorem repo_loop_eq (pages : Nat → List Package) :
    ∀ (fuel idx : Nat) (acc : List Package),
    repo_loop pages fuel idx acc
      = (catalogSpec pages fuel idx).map (fun l => acc ++ l) := by
  intro fuel
  induction fuel with
  | zero => intro idx acc; simp [repo_loop, catalogSpec]
  | succ fuel ih =>
    intro idx acc
    rw [repo_loop, catalogSpec]
    simp only [process_batch_eq, Bool.false_or]
    by_cases hany : ((List.range API_PULL_JOBS).map (fun i => pages (idx + i))).any
        (fun d => d.isEmpty)
    · simp [hany]
    · have hall : ∀ d ∈ (List.range API_PULL_JOBS).map (fun i => pages (idx + i)),
          (!d.isEmpty) = true := by
        intro d hd
        by_contra hcon
        apply hany
        rw [List.any_eq_true]
        exact ⟨d, hd, by simpa using hcon⟩
      have hfilter : ((List.range API_PULL_JOBS).map (fun i => pages (idx + i))).filter
          (fun d => !d.isEmpty)
          = (List.range API_PULL_JOBS).map (fun i => pages (idx + i)) :=
        List.filter_eq_self.mpr hall
      cases hcat : catalogSpec pages fuel (idx + API_PULL_JOBS) <;>
        simp [hany, hfilter, ih, hcat, List.append_assoc]

/-- Catalog pages for the C1 counterexample: page 1 and page 3 are
non-empty, every other page (page 2 in particular) is empty. All three lie
in the first batch of API_PULL_JOBS pages. -/
def c1pages : Nat → List Package := fun n =>
  if n = 1 then [⟨"alpha", [⟨"1.0"⟩]⟩]
  else if n = 3 then [⟨"bravo", [⟨"1.0"⟩]⟩]
  else []

/-- C1 counterexample: pages fetched in one concurrent batch, where page 1
is non-empty, page 2 is empty, and page 3 is non-empty. The scan stops at
this first batch (the claim is right there), but the package of page 3 is
not discarded: it appears in the returned sequence after the package of
page 1, refuting the claim that results after the first empty page of the
batch are dropped. -/
theorem c1_counterexample :
    c1pages 2 = []
    ∧ get_full_repo_data c1pages 1
        = some [⟨"alpha", [⟨"1.0"⟩]⟩, ⟨"bravo", [⟨"1.0"⟩]⟩] := by
  constructor
  · rfl
  · decide

/-- C1 amended: the catalog scan proceeds in fixed batches of
API_PULL_JOBS consecutive pages, concatenated in page order; it stops at
the first batch containing a page that parses to an empty collection, but
within that final batch every non-empty page is kept, including the pages
positioned after the first empty one (nothing is discarded). -/
theorem c1_stop_at_first_empty_batch (pages : Nat → List Package) (fuel : Nat) :
    get_full_repo_data pages fuel = catalogSpec pages fuel 1 := by
  unfold get_full_repo_data
  rw [repo_loop_eq]
  cases catalogSpec pages fuel 1 <;> simp

/-! Theorems about the manifest resolver (download_and_process_hex_csv). -/

/-- The filepaths of the dict after inserting one row: unchanged when the
path is already known, extended by the new path otherwise. -/
theorem add_row_filepaths (acc : List UniqueFile) (file url hash : String) :
    (add_row acc file url hash).map UniqueFile.filepath
      = if acc.any (fun e => e.filepath == file) then acc.map UniqueFile.filepath
        else acc.map UniqueFile.filepath ++ [file] := by
  by_cases h : acc.any (fun e => e.filepath == file)
  · rw [add_row, if_pos h, if_pos h, List.map_map]
    apply List.map_congr_left
    intro e _
    by_cases hf : e.filepath = file <;> simp [hf]
  · rw [add_row, if_neg h, if_neg h]
    simp

/-- Folding rows into the dict keeps the destination paths pairwise
distinct. -/
theorem unique_filepaths_aux_nodup (dir pre suf : String) :
    ∀ (rows : List CsvRow) (acc : List UniqueFile),
    (acc.map UniqueFile.filepath).Nodup →
    ((rows.foldl
        (fun acc row =>
          add_row acc (local_install_file dir row.elixir_ver pre row.hex_ver suf)
            (install_url row.elixir_ver pre row.hex_ver suf) row.hash) acc).map
      UniqueFile.filepath).Nodup := by
  intro rows
  induction rows with
  | nil => intro acc h; simpa using h
  | cons row rows ih =>
    intro acc h
    rw [List.foldl_cons]
    apply ih
    rw [add_row_filepaths]
    by_cases hmem : acc.any
        (fun e => e.filepath == local_install_file dir row.elixir_ver pre row.hex_ver suf)
    · rw [if_pos hmem]; exact h
    · rw [if_neg hmem]
      rw [List.nodup_append]
      refine ⟨h, List.nodup_singleton _, ?_⟩
      intro a ha hb
      rw [List.mem_singleton] at hb
      subst hb
      rw [List.mem_map] at ha
      obtain ⟨e, he, hef⟩ := ha
      apply hmem
      rw [List.any_eq_true]
      exact ⟨e, he, by simp [hef]⟩

/-- The destination paths grouped from the manifest rows are pairwise
distinct. -/
theorem unique_filepaths_nodup (dir pre suf : String) (rows : List CsvRow) :
    ((unique_filepaths dir pre suf rows).map UniqueFile.filepath).Nodup := by
  unfold unique_filepaths
  exact unique_filepaths_aux_nodup dir pre suf rows [] (by simp)

/-- The selection loop of the manifest resolver keeps exactly the grouped
files matching none of their digests, in dict order, as tasks. -/
theorem csv_tasks_eq (hexdigest : List Nat → String) (fs : FS) :
    ∀ (l : List UniqueFile) (acc : List (String × String)),
    l.foldl (fun files_to_download e =>
        if e.hashes.any (fun h => file_with_hash_exists hexdigest fs e.filepath h) then
          files_to_download
        else files_to_download ++ [(e.url, e.filepath)]) acc
      = acc ++ (l.filter (fun e =>
          !(e.hashes.any (fun h => file_with_hash_exists hexdigest fs e.filepath h)))).map
          (fun e => (e.url, e.filepath)) := by
  intro l
  induction l with
  | nil => intro acc; simp
  | cons e l ih =>
    intro acc
    rw [List.foldl_cons, ih]
    by_cases h : (e.hashes.any (fun h => file_with_hash_exists hexdigest fs e.filepath h)) = true
    · simp [h]
    · rw [Bool.not_eq_true] at h
      simp [h]

/-- The manifest resolver emits one task per grouped file that matches
none of its accumulated digests, in dict order. -/
theorem download_and_process_hex_csv_eq (hexdigest : List Nat → String) (fs : FS)
    (dir : String) (rows : List CsvRow) (pre suf : String) :
    download_and_process_hex_csv hexdigest fs dir rows pre suf
      = ((unique_filepaths dir pre suf rows).filter (fun e =>
          !(e.hashes.any (fun h => file_with_hash_exists hexdigest fs e.filepath h)))).map
          (fun e => (e.url, e.filepath)) := by
  unfold download_and_process_hex_csv
  rw [csv_tasks_eq]
  simp

/-- C4: for every destination path grouped from the manifest rows, if the
file on disk matches any one of the digests accumulated for that path,
the path is excluded from the returned task list; if it matches none of
them (in particular when the file is absent, where every check returns
false), exactly one task for that path is emitted. -/
theorem c4_manifest_multi_hash (hexdigest : List Nat → String) (fs : FS)
    (dir pre suf : String) (rows : List CsvRow) (e : UniqueFile)
    (he : e ∈ unique_filepaths dir pre suf rows) :
    (e.hashes.any (fun h => file_with_hash_exists hexdigest fs e.filepath h) = true →
      ∀ t ∈ download_and_process_hex_csv hexdigest fs dir rows pre suf,
        t.2 ≠ e.filepath)
    ∧ (e.hashes.any (fun h => file_with_hash_exists hexdigest fs e.filepath h) = false →
      (download_and_process_hex_csv hexdigest fs dir rows pre suf).countP
          (fun t => t.2 == e.filepath) = 1) := by
  have hnd := unique_filepaths_nodup dir pre suf rows
  have hinj := List.inj_on_of_nodup_map hnd
  constructor
  · intro hmatch t ht hteq
    rw [download_and_process_hex_csv_eq, List.mem_map] at ht
    obtain ⟨e2, he2, rfl⟩ := ht
    have he2l := List.mem_of_mem_filter he2
    have heq : e2 = e := hinj he2l he (by simpa using hteq)
    subst heq
    rw [List.mem_filter] at he2
    simp [hmatch] at he2
  · intro hno
    rw [download_and_process_hex_csv_eq, List.countP_map, List.countP_filter]
    have hcount : (unique_filepaths dir pre suf rows).countP
        (fun e2 => e2.filepath == e.filepath) = 1 := by
      have hone := List.count_eq_one_of_mem hnd (List.mem_map_of_mem UniqueFile.filepath he)
      rw [List.count_eq_countP, List.countP_map] at hone
      exact hone
    calc (unique_filepaths dir pre suf rows).countP
          (fun e2 => ((fun x => (x.url, x.filepath)) e2).2 == e.filepath
            && !(e2.hashes.any (fun h => file_with_hash_exists hexdigest fs e2.filepath h)))
        = (unique_filepaths dir pre suf rows).countP
            (fun e2 => e2.filepath == e.filepath) := by
          apply List.countP_congr
          intro e2 he2
          simp only [Bool.and_eq_true]
          constructor
          · intro hb; exact hb.1
          · intro hb
            have heq : e2 = e := hinj he2 he (by simpa using hb)
            subst heq
            exact ⟨hb, by simp [hno]⟩
      _ = 1 := hcount

/-- Hexdigest model for the C4 witness: content byte 1 hashes to aa11,
everything else to ffff. -/
def c4digest : List Nat → String := fun c => if c = [1] then "aa11" else "ffff"

/-- Filesystem for the C4 witness: only the hex-1.0.ez install file
exists, with content byte 1. -/
def c4fs : FS := fun p =>
  if p = "./repo.hex.pm/installs/1.13.0/hex-1.0.ez" then some [1] else none

/-- Manifest rows for the C4 witness: hex 1.0 appears twice with two
different hashes, hex 2.0 once. -/
def c4rows : List CsvRow :=
  [⟨"1.0", "bb22", "1.13.0"⟩, ⟨"1.0", "aa11", "1.13.0"⟩, ⟨"2.0", "cc33", "1.13.0"⟩]

/-- C4 witness: the hex-1.0.ez file matches the second of its two
accumulated digests and is excluded from the task list; the absent
hex-2.0.ez file matches none and gets exactly one task. -/
theorem c4_witness :
    (∀ t ∈ download_and_process_hex_csv c4digest c4fs "./repo.hex.pm" c4rows "hex" ".ez",
        t.2 ≠ "./repo.hex.pm/installs/1.13.0/hex-1.0.ez")
    ∧ (download_and_process_hex_csv c4digest c4fs "./repo.hex.pm" c4rows "hex" ".ez").countP
        (fun t => t.2 == "./repo.hex.pm/installs/1.13.0/hex-2.0.ez") = 1 :=
  ⟨(c4_manifest_multi_hash c4digest c4fs "./repo.hex.pm" "hex" ".ez" c4rows
      ⟨"./repo.hex.pm/installs/1.13.0/hex-1.0.ez",
       "https://repo.hex.pm/installs/1.13.0/hex-1.0.ez", ["bb22", "aa11"]⟩
      (by decide)).1 (by decide),
   (c4_manifest_multi_hash c4digest c4fs "./repo.hex.pm" "hex" ".ez" c4rows
      ⟨"./repo.hex.pm/installs/1.13.0/hex-2.0.ez",
       "https://repo.hex.pm/installs/1.13.0/hex-2.0.ez", ["cc33"]⟩
      (by decide)).2 (by decide)⟩

/-! Theorems about the whole pipeline task list (main, download command). -/

/-- Helper: when every grouped file of a manifest matches one of its
accumulated digests on disk, the manifest resolver returns no tasks. -/
theorem csv_no_tasks (hexdigest : List Nat → String) (fs : FS)
    (dir : String) (rows : List CsvRow) (pre suf : String)
    (h : ∀ e ∈ unique_filepaths dir pre suf rows,
      e.hashes.any (fun h => file_with_hash_exists hexdigest fs e.filepath h) = true) :
    download_and_process_hex_csv hexdigest fs dir rows pre suf = [] := by
  rw [download_and_process_hex_csv_eq, List.map_eq_nil_iff, List.filter_eq_nil_iff]
  intro e he
  simp [h e he]

/-- Hexdigest model for the C3 theorems: every content hashes to e3b0. -/
def c3digest : List Nat → String := fun _ => "e3b0"

/-- Filesystem for the C3 theorems: a file with content byte 5 exists at
every path, so every file the pipeline could produce is present. -/
def c3fs : FS := fun _ => some [5]

/-- Manifest rows for the C3 theorems: one hex install file, whose digest
matches the file on disk. -/
def c3hexRows : List CsvRow := [⟨"1.0", "e3b0", "1.13.0"⟩]

/-- C3 counterexample: with an unchanged remote (empty catalog, one
manifest row) and a local directory where every file is present and the
manifest file matches its digest, the combined download list of the
pipeline is still not empty: get_extra_files_list unconditionally appends
the nine auxiliary files, so the combined list has nine tasks. -/
theorem c3_counterexample :
    (∀ e ∈ unique_filepaths "./repo.hex.pm" "hex" ".ez" c3hexRows,
      e.hashes.any (fun h => file_with_hash_exists c3digest c3fs e.filepath h) = true)
    ∧ (main_download_list c3digest c3fs "./repo.hex.pm" [] c3hexRows [] []).length = 9
    ∧ main_download_list c3digest c3fs "./repo.hex.pm" [] c3hexRows [] [] ≠ [] := by
  refine ⟨by decide, by decide, by decide⟩

/-- C3 amended: with an unchanged remote and every file the pipeline could
produce already present locally (all release tarballs, all package
metadata files, all manifest referenced install files with matching
digests), the combined download list is not empty but consists of exactly
the always added auxiliary file tasks of get_extra_files_list; the
catalog derived and manifest derived portions are empty. -/
theorem c3_pipeline_extras_only (hexdigest : List Nat → String) (fs : FS)
    (dir : String) (full_list : List Package)
    (hexRows rebarRows rebar3Rows : List CsvRow)
    (hcat : ∀ p ∈ full_list,
      (∀ r ∈ p.releases, isfile fs (local_tarball_file dir p.name r.version) = true)
      ∧ isfile fs (local_package_file dir p.name) = true)
    (hhex : ∀ e ∈ unique_filepaths dir "hex" ".ez" hexRows,
      e.hashes.any (fun h => file_with_hash_exists hexdigest fs e.filepath h) = true)
    (hrebar : ∀ e ∈ unique_filepaths dir "rebar" "" rebarRows,
      e.hashes.any (fun h => file_with_hash_exists hexdigest fs e.filepath h) = true)
    (hrebar3 : ∀ e ∈ unique_filepaths dir "rebar3" "" rebar3Rows,
      e.hashes.any (fun h => file_with_hash_exists hexdigest fs e.filepath h) = true) :
    main_download_list hexdigest fs dir full_list hexRows rebarRows rebar3Rows
      = extra_files.map (fun extra =>
          ("https://repo.hex.pm/" ++ extra, dir ++ "/" ++ extra)) := by
  unfold main_download_list get_extra_files_list
  rw [determine_eq_nil_of_all_present full_list dir fs hcat,
    csv_no_tasks hexdigest fs dir hexRows "hex" ".ez" hhex,
    csv_no_tasks hexdigest fs dir rebarRows "rebar" "" hrebar,
    csv_no_tasks hexdigest fs dir rebar3Rows "rebar3" "" hrebar3]
  simp

/-- C3 witness: on the concrete fully populated state of the C3
counterexample, the combined pipeline list is exactly the nine auxiliary
file tasks. -/
theorem c3_witness :
    main_download_list c3digest c3fs "./repo.hex.pm" [] c3hexRows [] []
      = extra_files.map (fun extra =>
          ("https://repo.hex.pm/" ++ extra, "./repo.hex.pm" ++ "/" ++ extra)) :=
  c3_pipeline_extras_only c3digest c3fs "./repo.hex.pm" [] c3hexRows [] []
    (by decide) (by decide) (by decide) (by decide)

end DownloadHexpm
